import Mathlib

/-!
Verification development for the SRRI data-validation pipeline
(`logic/srri_monitoring_transformation.py`, `logic/permalink_transformation.py`,
`logic/compare_and_export.py`).

The Python code is shallowly embedded: pandas rows become association lists of
`(column name, cell)` pairs, cells become an inductive `Cell` type with an
explicit `missing` constructor mirroring `NaN`, and the regex / string
operations of the source are re-implemented as executable functions over
`List Char`.  SRRI values are categorical integer tokens (scale 1–7), so the
numeric coercions (`pd.to_numeric`) are modelled on integer literals.
-/

namespace SRRI

/-! ## Character / string primitives (Python `str` semantics on `List Char`) -/

/-- Python `\s` (ASCII whitespace as used by the manifest/KIID texts). -/
def isPySpace (c : Char) : Bool :=
  c = ' ' || c = '\t' || c = '\n' || c = '\r' || c = '\x0b' || c = '\x0c'

def isLowerAlpha (c : Char) : Bool := 'a' ≤ c && c ≤ 'z'

def isDigitChar (c : Char) : Bool := '0' ≤ c && c ≤ '9'

/-- Python word character (`\w`), used for `\b` boundaries. -/
def isWordChar (c : Char) : Bool :=
  isDigitChar c || isLowerAlpha c || ('A' ≤ c && c ≤ 'Z') || c = '_'

def dropRightWhile (p : Char → Bool) (l : List Char) : List Char :=
  (l.reverse.dropWhile p).reverse

/-- Python `s.strip()` (both ends, whitespace). -/
def pyStrip (l : List Char) : List Char :=
  dropRightWhile isPySpace (l.dropWhile isPySpace)

/-- Python `s.strip('"')` (both ends, quote characters only). -/
def pyStripQuotes (l : List Char) : List Char :=
  dropRightWhile (· = '"') (l.dropWhile (· = '"'))

def toLowerChars (l : List Char) : List Char := l.map Char.toLower

def toUpperChars (l : List Char) : List Char := l.map Char.toUpper

/-- Python `old in s` / prefix test for a pattern at the current position. -/
def isPrefixOfChars (pat s : List Char) : Bool :=
  match pat, s with
  | [], _ => true
  | _ :: _, [] => false
  | p :: ps, c :: cs => p = c && isPrefixOfChars ps cs

/-- Case-insensitive prefix test (regex `re.IGNORECASE` literal match). -/
def isPrefixOfCharsCI (pat s : List Char) : Bool :=
  match pat, s with
  | [], _ => true
  | _ :: _, [] => false
  | p :: ps, c :: cs => Char.toLower p = Char.toLower c && isPrefixOfCharsCI ps cs

/-- Python `s.replace(old, new)`: left-to-right, non-overlapping, all
occurrences.  Structural recursion on fuel so that the kernel can evaluate it;
`fuel = s.length + 1` always suffices because a match consumes at least one
character when `old` is nonempty, and for empty `old` the deletion is the
identity (only `currency = ""` would reach that case). -/
def replaceAllFuel (old new : List Char) : Nat → List Char → List Char
  | 0, l => l
  | _ + 1, [] => []
  | fuel + 1, c :: cs =>
    if !old.isEmpty && isPrefixOfChars old (c :: cs) then
      new ++ replaceAllFuel old new fuel ((c :: cs).drop old.length)
    else
      c :: replaceAllFuel old new fuel cs

def replaceAll (old new s : List Char) : List Char :=
  replaceAllFuel old new (s.length + 1) s

/-- Python `s.startswith(pre)`. -/
def startsWithChars (pre s : List Char) : Bool := isPrefixOfChars pre s

/-- Whether `pat` occurs as a substring. -/
def containsSub (pat : List Char) : List Char → Bool
  | [] => isPrefixOfChars pat []
  | c :: cs => isPrefixOfChars pat (c :: cs) || containsSub pat cs

/-- Python `s.split(',')`. -/
def splitOnComma : List Char → List (List Char)
  | [] => [[]]
  | c :: cs =>
    if c = ',' then [] :: splitOnComma cs
    else
      match splitOnComma cs with
      | [] => [[c]]
      | f :: rest => (c :: f) :: rest

/-- Repeatedly delete pattern matches (`re.sub(pat, '', s)`): left-to-right,
non-overlapping.  `m` returns the remainder after a match at the current
position.  Fuel (`length + 1`) suffices since every matcher consumes at least
one character. -/
def removeMatchesFuel (m : List Char → Option (List Char)) : Nat → List Char → List Char
  | 0, l => l
  | _ + 1, [] => []
  | fuel + 1, c :: cs =>
    match m (c :: cs) with
    | some rest => removeMatchesFuel m fuel rest
    | none => c :: removeMatchesFuel m fuel cs

/-! ## Identifier derivation

`generate_identifier` (srri_monitoring_transformation.py, lines 108–122) and
`clean_identifier` (permalink_transformation.py, lines 63–79).  Both sources
take a pandas cell; the `pd.isna` guard returns `""` for a missing cell and is
outside the string-typed domain modelled here (valid share-class names). -/

/-- Match of `re` pattern `ucits\s+etf` (IGNORECASE) at the current position;
returns the remainder after the match. -/
def matchUcitsEtfAt (s : List Char) : Option (List Char) :=
  if isPrefixOfCharsCI "ucits".data s then
    let rest1 := s.drop 5
    if (rest1.takeWhile isPySpace).isEmpty then none
    else
      let rest2 := rest1.dropWhile isPySpace
      if isPrefixOfCharsCI "etf".data rest2 then some (rest2.drop 3) else none
  else none

/-- Match of `re` pattern `(ucits|ucts)(\s*etf)?` (IGNORECASE) at the current
position; the optional group greedily takes a following `\s*etf` if present. -/
def matchUcitsOrUctsAt (s : List Char) : Option (List Char) :=
  if isPrefixOfCharsCI "ucits".data s then
    some (s.drop 5)
  else if isPrefixOfCharsCI "ucts".data s then
    some (s.drop 4)
  else none

def matchPermalinkNoiseAt (s : List Char) : Option (List Char) :=
  (matchUcitsOrUctsAt s).map fun rest =>
    let rest2 := rest.dropWhile isPySpace
    if isPrefixOfChars "etf".data rest2 then rest2.drop 3 else rest

/-- Match of `([a-z]{3})\s*\(hedged\)` at the current position, returning the
captured three-letter group. -/
def matchHedgedAt (s : List Char) : Option (List Char) :=
  match s with
  | a :: b :: c :: rest =>
    if isLowerAlpha a && isLowerAlpha b && isLowerAlpha c then
      let rest2 := rest.dropWhile isPySpace
      if isPrefixOfChars "(hedged)".data rest2 then some [a, b, c] else none
    else none
  | _ => none

/-- Model of `re.search` of the hedged pattern: leftmost match wins. -/
def findHedged : List Char → Option (List Char)
  | [] => none
  | c :: cs =>
    match matchHedgedAt (c :: cs) with
    | some g => some g
    | none => findHedged cs

def isRegisteredGlyph (c : Char) : Bool := c = '®' || c = '¬' || c = 'Æ'

/-- Monitoring-side identifier derivation
(srri_monitoring_transformation.py, lines 108–122). -/
def generate_identifier (shareClass currency : String) : String :=
  let name0 := toLowerChars shareClass.data
  let name1 := removeMatchesFuel matchUcitsEtfAt (name0.length + 1) name0
  let name2 := name1.filter (fun c => !isRegisteredGlyph c)
  let name3 := replaceAll "class ".data [] name2
  let name4 := replaceAll "accu".data "acc".data name3
  let hedged := findHedged name4
  let name5 := name4.filter isLowerAlpha
  let cur := toLowerChars currency.data
  let name6 := replaceAll cur [] name5 ++ cur
  match hedged with
  | some g => String.mk (name6 ++ g ++ "hedged".data)
  | none => String.mk name6

/-- Permalink-side identifier derivation
(permalink_transformation.py, lines 63–79). -/
def clean_identifier (nameIn : String) : String :=
  let originalLower := toLowerChars nameIn.data
  let name1 := removeMatchesFuel matchPermalinkNoiseAt (originalLower.length + 1) originalLower
  let name2 := name1.filter (fun c => !isRegisteredGlyph c)
  let name3 := replaceAll "class ".data [] name2
  let name4 := replaceAll "accu".data "acc".data name3
  let name5 := name4.filter isLowerAlpha
  let name6 :=
    match findHedged originalLower with
    | some g => name5 ++ g ++ "hedged".data
    | none => name5
  if !startsWithChars "first trust".data originalLower then
    String.mk ("firsttrust".data ++ name6)
  else
    String.mk name6


/-! ## Monitoring transformation: stability flags and change-point extraction
(srri_monitoring_transformation.py, lines 56–98).

A weekly SRRI row is the sequence of its `SRRI Result (Week n)` cells in
chronological order; `none` is a `NaN` cell.  `.dropna().astype(str)` keeps
the non-missing values as opaque string tokens. -/

/-- Model of `row[srri_columns].dropna()`. -/
def dropnaCells (row : List (Option String)) : List String := row.filterMap id

/-- Model of `len(set(values)) == 1`: the list is nonempty and all values coincide. -/
def uniformNE : List String → Bool
  | [] => false
  | a :: rest => rest.all (· == a)

/-- Model of `is_last_16_weeks_stable` (lines 56–58): `values[-16:]` has exactly 16
entries, all equal. -/
def is_last_16_weeks_stable (row : List (Option String)) : Bool :=
  let values := (dropnaCells row).drop ((dropnaCells row).length - 16)
  values.length == 16 && uniformNE values

/-- Model of `has_any_16_week_stability` (lines 60–65): some window
`values[i:i+16]`, `i < len(values) - 15`, is uniform. -/
def has_any_16_week_stability (row : List (Option String)) : Bool :=
  let values := dropnaCells row
  (List.range (values.length - 15)).any fun i => uniformNE ((values.drop i).take 16)

/-- Backward scan of `extract_srri_change_info` (lines 82–87): the largest
`i ≤ len - 2` with `values[i] != latest`; the change happened at week `i+1`. -/
def changeWeekIdx (values : List String) (latest : String) : Option Nat :=
  ((List.range (values.length - 1)).reverse.find? fun i => values.getD i "" != latest).map (· + 1)

structure SrriChangeInfo where
  previousSrri : Option String
  latestSrri : Option String
  changeWeek : Option String
deriving DecidableEq, Repr

/-- Model of `extract_srri_change_info` (lines 71–98) over the `(week name, cell)`
pairs of the SRRI columns.  The cosmetic `re.search(r"Week\s*\d+")`
reformatting of the week label and the `Date of SRRI Change` lookup in the
full row are not modelled; no claim below depends on them. -/
def extract_srri_change_info (cells : List (String × Option String)) : SrriChangeInfo :=
  let srriSeries := cells.filterMap fun wc => wc.2.map fun v => (wc.1, v)
  let srriValues := srriSeries.map (·.2)
  let weekNames := srriSeries.map (·.1)
  match srriValues.getLast? with
  | none => ⟨none, none, none⟩
  | some latest =>
    let previous := ((srriValues.dropLast.reverse.find? fun v => v != latest).getD latest)
    let changeWeek := (changeWeekIdx srriValues latest).bind fun i => weekNames.get? i
    ⟨some previous, some latest, changeWeek⟩

/-! ## Monitoring transformation: row pipeline
(srri_monitoring_transformation.py, lines 36–53 and 183–192). -/

structure MonRow where
  shareClass : String
  currency : String
  /-- Model of `last validated document date`, already rendered as a `YYYY-MM-DD`
  string (line 172); line 184 sorts these strings. -/
  lastValidated : String
  /-- Model of `(week name, SRRI Result cell)` pairs in chronological order. -/
  srri : List (String × Option String)
deriving DecidableEq, Repr

/-- Model of `Valid_SRRI_Count` (line 37): non-missing SRRI cells of the row. -/
def valid_srri_count (r : MonRow) : Nat :=
  (dropnaCells (r.srri.map (·.2))).length

/-- The minimum-history gate (line 52): keep rows with at least 16 values. -/
def gateRows (rows : List MonRow) : List MonRow :=
  rows.filter fun r => 16 ≤ valid_srri_count r

structure SummaryRow where
  identifier : String
  lastValidated : String
  previousSrri : Option String
  latestSrri : Option String
  last16 : Bool
  any16 : Bool
deriving DecidableEq, Repr

/-- One summary row (steps 7, 8, 10 of `process_monitoring_file`). -/
def mkSummary (r : MonRow) : SummaryRow :=
  let info := extract_srri_change_info r.srri
  { identifier := generate_identifier r.shareClass r.currency
    lastValidated := r.lastValidated
    previousSrri := info.previousSrri
    latestSrri := info.latestSrri
    last16 := is_last_16_weeks_stable (r.srri.map (·.2))
    any16 := has_any_16_week_stability (r.srri.map (·.2)) }

/-- Kernel-evaluable lexicographic order on the date strings
(`YYYY-MM-DD` renderings compare like pandas string sort). -/
def charListLe : List Char → List Char → Bool
  | [], _ => true
  | _ :: _, [] => false
  | a :: as, b :: bs => if a = b then charListLe as bs else decide (a < b)

/-- Date-descending comparison on summary rows. -/
def dateGe (a b : SummaryRow) : Prop :=
  charListLe b.lastValidated.data a.lastValidated.data = true

instance : DecidableRel dateGe := fun _ _ =>
  inferInstanceAs (Decidable (_ = true))

/-- Model of `sort_values("LAST_VALIDATED_DOCUMENT", ascending=False)` (line 184). -/
def sortByDateDesc (rows : List SummaryRow) : List SummaryRow :=
  List.insertionSort dateGe rows

/-- Model of `drop_duplicates(subset="IDENTIFIER", keep="first")` (line 190). -/
def dedupGo (key : α → String) (seen : List String) : List α → List α
  | [] => []
  | x :: xs =>
    if key x ∈ seen then dedupGo key seen xs
    else x :: dedupGo key (key x :: seen) xs

def dedupByKey (key : α → String) (l : List α) : List α := dedupGo key [] l

/-- Steps 6–13 of `process_monitoring_file` at row level: minimum-history
gate, per-row summarisation, sort by date descending, dedup by identifier. -/
def process_monitoring_rows (rows : List MonRow) : List SummaryRow :=
  dedupByKey (·.identifier) (sortByDateDesc ((gateRows rows).map mkSummary))

/-! ## Tabular model (pandas DataFrames)

A cell is either missing (`NaN`) or a typed value; a row is an association
list from column name to cell; a table carries its column list and rows. -/

inductive Cell where
  | missing
  | num (n : Int)
  | str (s : String)
  | boolC (b : Bool)
deriving DecidableEq, Repr

structure Table where
  cols : List String
  rows : List (List (String × Cell))
deriving DecidableEq, Repr

/-- First cell under column `c` (missing column reads as `NaN`). -/
def lookupCell (r : List (String × Cell)) (c : String) : Cell :=
  ((r.find? fun kv => kv.1 == c).map (·.2)).getD Cell.missing

def digitsToNat (ds : List Char) : Nat :=
  ds.foldl (fun acc c => acc * 10 + (c.toNat - '0'.toNat)) 0

/-- Integer-literal parse backing `pd.to_numeric(..., errors="coerce")` on the
string tokens of this pipeline (the SRRI scale); anything else coerces to
missing. -/
def parseIntToken (s : String) : Option Int :=
  let t := pyStrip s.data
  match t with
  | [] => none
  | '-' :: ds => if ds ≠ [] && ds.all isDigitChar then some (-(digitsToNat ds : Int)) else none
  | ds => if ds.all isDigitChar then some (digitsToNat ds) else none

/-- Model of `pd.to_numeric(cell, errors="coerce")`. -/
def toNumericCell : Cell → Cell
  | .missing => .missing
  | .num n => .num n
  | .boolC b => .num (if b then 1 else 0)
  | .str s =>
    match parseIntToken s with
    | some n => .num n
    | none => .missing

/-- pandas elementwise `!=`: a missing value compares unequal to everything,
including another missing value (`NaN != NaN` is `True`). -/
def cellNe : Cell → Cell → Bool
  | .missing, _ => true
  | _, .missing => true
  | a, b => a != b

/-- pandas `series == True` per element (`True` coerces to `1` numerically). -/
def cellEqTrue : Cell → Bool
  | .boolC b => b
  | .num n => n == 1
  | _ => false

/-- Column-name canonicalisation of the reconciler (compare_and_export.py,
lines 16–23): strip, uppercase, spaces and hyphens to underscores. -/
def normalizeName (s : String) : String :=
  String.mk ((toUpperChars (pyStrip s.data)).map fun c =>
    if c = ' ' || c = '-' then '_' else c)

/-- Model of `df.columns = normalize_columns(df)` mutates the frame in place; the
embedding returns the renamed table (column list and per-row keys). -/
def normalizeTable (t : Table) : Table :=
  { cols := t.cols.map normalizeName
    rows := t.rows.map fun r => r.map fun kv => (normalizeName kv.1, kv.2) }

/-- Model of `df[c] = pd.to_numeric(df[c], errors="coerce")`, also in place. -/
def coerceCol (c : String) (t : Table) : Table :=
  { t with rows := t.rows.map fun r => r.map fun kv =>
      if kv.1 = c then (kv.1, toNumericCell kv.2) else kv }

def requiredMonitoringCols : List String :=
  ["IDENTIFIER", "LATEST_SRRI", "WEEK_OF_CHANGE", "ANY_16_WEEKS_STABLE"]

def requiredPermalinkCols : List String := ["IDENTIFIER", "KIID_SRRI"]

/-- Monitoring columns selected into the merge (line 49), the join key aside. -/
def monSelectCols : List String := ["LATEST_SRRI", "WEEK_OF_CHANGE"]

def preferredOrder : List String :=
  ["FUND_NAME", "SHARE_CLASS", "ISIN", "KIID_PDF_URL", "FACT_SHEET_URL",
   "IDENTIFIER", "KIID_SRRI", "LATEST_SRRI", "WEEK_OF_CHANGE",
   "MANAGEMENT_FEE", "SHARE_CLASS_INCEPTION_DATE"]

/-- A joined row: the permalink row followed by the selected monitoring
columns (the merge keeps the left `IDENTIFIER` key column). -/
def joinRow (pm : List (String × Cell) × List (String × Cell)) : List (String × Cell) :=
  pm.1 ++ monSelectCols.map fun c => (c, lookupCell pm.2 c)

/-- Model of `compare_srri_values` (compare_and_export.py, lines 3–74) on in-memory
tables.  The result triple is (monitoring table after the call, permalink
table after the call, mismatch report): the source normalises the column
names of both argument frames and coerces their SRRI columns *in place*, so
the post-call state of the two inputs is part of the model.  File loading and
the CSV export are I/O outside the embedding. -/
def compare_srri_values (monitoring permalink : Table) :
    Except String (Table × Table × Table) :=
  let mon1 := normalizeTable monitoring
  let perm1 := normalizeTable permalink
  if !(requiredMonitoringCols.all fun c => mon1.cols.contains c) then
    .error "Monitoring file missing columns"
  else if !(requiredPermalinkCols.all fun c => perm1.cols.contains c) then
    .error "Permalink file missing columns"
  else
    let perm2 := coerceCol "KIID_SRRI" perm1
    let mon2 := coerceCol "LATEST_SRRI" mon1
    let stableRows := mon2.rows.filter fun m =>
      cellEqTrue (lookupCell m "ANY_16_WEEKS_STABLE")
    let pairs := perm2.rows.flatMap fun p =>
      (stableRows.filter fun m =>
        lookupCell m "IDENTIFIER" == lookupCell p "IDENTIFIER").map fun m => (p, m)
    let kept := pairs.filter fun pm =>
      !(lookupCell (joinRow pm) "KIID_SRRI" == Cell.missing) &&
      !(lookupCell (joinRow pm) "LATEST_SRRI" == Cell.missing)
    let mism := kept.filter fun pm =>
      cellNe (lookupCell (joinRow pm) "KIID_SRRI") (lookupCell (joinRow pm) "LATEST_SRRI")
    let mergedCols := perm2.cols ++ monSelectCols
    let finalCols := preferredOrder.filter fun c => mergedCols.contains c
    let res : Table :=
      { cols := finalCols
        rows := mism.map fun pm => finalCols.map fun c => (c, lookupCell (joinRow pm) c) }
    .ok (mon2, perm2, res)

/-- Post-call state of the permalink argument, when the call succeeds. -/
def permalinkAfter (monitoring permalink : Table) : Option Table :=
  match compare_srri_values monitoring permalink with
  | .ok (_, pa, _) => some pa
  | .error _ => none

/-! ## Permalink extractor: manifest line parsing
(permalink_transformation.py, lines 26–42). -/

/-- Model of `line.strip('"').split(',')`. -/
def kiidFields (line : String) : List String :=
  (splitOnComma (pyStripQuotes line.data)).map String.mk

def isIsinChar (c : Char) : Bool := isDigitChar c || ('A' ≤ c && c ≤ 'Z')

/-- Search for the lazy tail `\S+?KIID\.pdf` of the URL pattern (line 27):
at least one non-whitespace character, then the literal `KIID.pdf`, with
only non-whitespace in between. -/
def hasKiidPdfTail : List Char → Bool
  | [] => false
  | c :: cs =>
    if isPySpace c then false
    else isPrefixOfChars "KIID.pdf".data cs || hasKiidPdfTail cs

/-- Match of `https?://\S+?KIID\.pdf` at this position. -/
def matchKiidUrlAt (s : List Char) : Bool :=
  if isPrefixOfChars "http".data s then
    let r := s.drop 4
    let r2 := if isPrefixOfChars "s".data r then r.drop 1 else r
    if isPrefixOfChars "://".data r2 then hasKiidPdfTail (r2.drop 3) else false
  else false

/-- Whether `re.search(r"https?://\S+?KIID\.pdf", line)` (line 27) finds a
match. -/
def hasKiidUrl : List Char → Bool
  | [] => false
  | c :: cs => matchKiidUrlAt (c :: cs) || hasKiidUrl cs

/-- Match of `IE[0-9A-Z]{10}` plus the trailing `\b` at this position. -/
def matchIsinTokenAt (s : List Char) : Bool :=
  match s with
  | 'I' :: 'E' :: rest =>
    (rest.take 10).length == 10 && (rest.take 10).all isIsinChar &&
      (match rest.drop 10 with
       | [] => true
       | d :: _ => !isWordChar d)
  | _ => false

/-- Word-boundary-aware scan of `\bIE[0-9A-Z]{10}\b`; `prev` carries the
previous character for the leading boundary. -/
def hasIsinMatchGo (prev : Option Char) : List Char → Bool
  | [] => false
  | c :: cs =>
    ((match prev with | none => true | some p => !isWordChar p)
        && matchIsinTokenAt (c :: cs))
      || hasIsinMatchGo (some c) cs

/-- Whether `re.search(r"\bIE[0-9A-Z]{10}\b", line)` (line 28) finds a
match. -/
def hasIsinMatch (line : List Char) : Bool := hasIsinMatchGo none line

/-- Share-class resolution of the KIID line parser (lines 26–34): a line is
parsed only when the line-31 guard holds — a URL match, an ISIN match and at
least 4 comma-delimited fields — and then the share class is
`fields[2].strip()` when `fields[3].strip()` starts with `"IE"`, else
`"{third} - {fourth}"`. -/
def kiidShareClass (line : String) : Option String :=
  let fields := kiidFields line
  if hasKiidUrl line.data = true ∧ hasIsinMatch line.data = true ∧ 4 ≤ fields.length then
    let third := String.mk (pyStrip (fields.getD 2 "").data)
    let fourth := String.mk (pyStrip (fields.getD 3 "").data)
    some (if startsWithChars "IE".data fourth.data then third
          else third ++ " - " ++ fourth)
  else none

/-- The manifest ISIN shape (`\bIE[0-9A-Z]{10}\b`, line 28) as a predicate on
a whole field: exactly `IE` followed by ten capital alphanumerics. -/
def isIsinToken (s : String) : Bool :=
  match s.data with
  | 'I' :: 'E' :: rest => rest.length == 10 && rest.all isIsinChar
  | _ => false

/-! ## Permalink extractor: KIID document mining
(permalink_transformation.py, lines 84–143).

The HTTP fetch and the two PDF-to-text backends are external collaborators:
the embedding takes the text each backend returned (`text` from the first,
`full_text` from the fallback backend). -/

/-- After `Risk and Reward Profile` (IGNORECASE), the scale digits `1`–`7`
each preceded by `\s*`. -/
def matchDigitsSeq : List Char → List Char → Option (List Char)
  | [], s => some s
  | d :: ds, s =>
    match s.dropWhile isPySpace with
    | c :: cs => if c = d then matchDigitsSeq ds cs else none
    | [] => none

/-- Match of the risk-scale header pattern
`Risk and Reward Profile\s*1\s*2\s*3\s*4\s*5\s*6\s*7` at this position. -/
def matchRiskHeaderAt (s : List Char) : Option (List Char) :=
  if isPrefixOfCharsCI "Risk and Reward Profile".data s then
    matchDigitsSeq "1234567".data (s.drop 23)
  else none

def findRiskHeader : List Char → Option (List Char)
  | [] => none
  | c :: cs =>
    match matchRiskHeaderAt (c :: cs) with
    | some rest => some rest
    | none => findRiskHeader cs

def segmentUntilHeader : List Char → List Char
  | [] => []
  | c :: cs =>
    match matchRiskHeaderAt (c :: cs) with
    | some _ => []
    | none => c :: segmentUntilHeader cs

/-- Model of `parts[1]` of `re.split(header, text)` when the split produced at least
two parts: the segment after the first header occurrence, up to the next. -/
def riskHeaderSegment (text : String) : Option String :=
  (findRiskHeader text.data).map fun rest => String.mk (segmentUntilHeader rest)

/-- Model of `re.search(r"\b[1-7]\b", ...)` (line 100). -/
def searchDigit17Go (prev : Option Char) : List Char → Option Nat
  | [] => none
  | c :: cs =>
    if ('1' ≤ c && c ≤ '7')
        && (match prev with | none => true | some p => !isWordChar p)
        && (match cs with | [] => true | d :: _ => !isWordChar d) then
      some (c.toNat - '0'.toNat)
    else searchDigit17Go (some c) cs

def searchDigit17 (s : String) : Option Nat := searchDigit17Go none s.data

/-- First backend SRRI (lines 98–102): split on the header, then the first
standalone digit 1–7 of `parts[1]`. -/
def plumberSrri (text : String) : Option Nat :=
  (riskHeaderSegment text).bind fun seg => searchDigit17 seg

/-- Model of `.*?([1-7])` after `risk`: the first digit 1–7 with no newline between
(`.` does not cross lines). -/
def digitOnLine : List Char → Option Nat
  | [] => none
  | c :: cs =>
    if c = '\n' then none
    else if '1' ≤ c && c ≤ '7' then some (c.toNat - '0'.toNat)
    else digitOnLine cs

/-- Model of `re.search(r'risk.*?([1-7])', ..., re.IGNORECASE)` (line 120): leftmost
`risk` occurrence from which a digit 1–7 is reachable on the same line. -/
def riskDigitSearch : List Char → Option Nat
  | [] => none
  | c :: cs =>
    if isPrefixOfCharsCI "risk".data (c :: cs) then
      match digitOnLine ((c :: cs).drop 4) with
      | some d => some d
      | none => riskDigitSearch cs
    else riskDigitSearch cs

/-- Match of `category\s+(\d)\s+reflects` (IGNORECASE) at this position. -/
def matchCategoryAt (s : List Char) : Option Nat :=
  if isPrefixOfCharsCI "category".data s then
    let r1 := s.drop 8
    if (r1.takeWhile isPySpace).isEmpty then none
    else
      match r1.dropWhile isPySpace with
      | d :: r2 =>
        if isDigitChar d then
          if (r2.takeWhile isPySpace).isEmpty then none
          else if isPrefixOfCharsCI "reflects".data (r2.dropWhile isPySpace) then
            some (d.toNat - '0'.toNat)
          else none
        else none
      | [] => none
  else none

def categoryReflectsSearch : List Char → Option Nat
  | [] => none
  | c :: cs =>
    match matchCategoryAt (c :: cs) with
    | some d => some d
    | none => categoryReflectsSearch cs

/-- Fallback SRRI chain (lines 119–124): the looser `risk…digit` pattern
first, then `category N reflects`; first successful pattern wins. -/
def fallbackSrri (fullText : String) : Option Nat :=
  match riskDigitSearch fullText.data with
  | some v => some v
  | none => categoryReflectsSearch fullText.data

/-- Model of `\s?%` tail of the fee pattern. -/
def matchPercentTail : List Char → Bool
  | '%' :: _ => true
  | c :: '%' :: _ => isPySpace c
  | _ => false

/-- Optional `(?:\.\d{1,2})?` (greedy) then `\s?%`; returns the numeral. -/
def matchFeeFrac (intPart : List Char) (s : List Char) : Option (List Char) :=
  let withFrac :=
    match s with
    | '.' :: d1 :: rest =>
      if isDigitChar d1 then
        let twoDigit :=
          match rest with
          | d2 :: rest2 =>
            if isDigitChar d2 && matchPercentTail rest2 then
              some (intPart ++ ['.', d1, d2])
            else none
          | [] => none
        match twoDigit with
        | some n => some n
        | none => if matchPercentTail rest then some (intPart ++ ['.', d1]) else none
      else none
    | _ => none
  match withFrac with
  | some n => some n
  | none => if matchPercentTail s then some intPart else none

/-- Model of `(\d{1,2}(?:\.\d{1,2})?)\s?%` at this position (greedy with backtrack). -/
def matchFeeNumberAt (s : List Char) : Option (List Char) :=
  match s with
  | d1 :: rest =>
    if !isDigitChar d1 then none
    else
      let twoDigit :=
        match rest with
        | d2 :: rest2 => if isDigitChar d2 then matchFeeFrac [d1, d2] rest2 else none
        | [] => none
      match twoDigit with
      | some n => some n
      | none => matchFeeFrac [d1] rest
  | [] => none

/-- Lazy gap `[^%]{0,100}?` before the fee number: smallest gap of non-`%`
characters (at most 100) after which the number matches. -/
def feeGapScan : Nat → List Char → Option (List Char)
  | _, [] => none
  | fuelGap, c :: cs =>
    match matchFeeNumberAt (c :: cs) with
    | some n => some n
    | none =>
      match fuelGap with
      | 0 => none
      | g + 1 => if c = '%' then none else feeGapScan g cs

/-- Model of `re.search(r"Ongoing charges[^%]{0,100}?(\d{1,2}(?:\.\d{1,2})?)\s?%",
..., re.IGNORECASE)` (lines 105, 127); the captured numeral is kept as text
(the source converts it with `float`). -/
def feeSearchChars : List Char → Option (List Char)
  | [] => none
  | c :: cs =>
    if isPrefixOfCharsCI "Ongoing charges".data (c :: cs) then
      match feeGapScan 100 ((c :: cs).drop 15) with
      | some n => some n
      | none => feeSearchChars cs
    else feeSearchChars cs

def feeSearch (s : String) : Option String := (feeSearchChars s.data).map String.mk

/-- Match of `ISIN\s*[:\-]?\s*(IE[0-9A-Z]{10})` at this position. -/
def matchIsinLabelAt (s : List Char) : Option (List Char) :=
  if isPrefixOfChars "ISIN".data s then
    let r1 := (s.drop 4).dropWhile isPySpace
    let r2 :=
      match r1 with
      | c :: cs => if c = ':' || c = '-' then cs else r1
      | [] => r1
    match r2.dropWhile isPySpace with
    | 'I' :: 'E' :: rest =>
      let body := rest.take 10
      if body.length == 10 && body.all isIsinChar then
        some ('I' :: 'E' :: body)
      else none
    | _ => none
  else none

def isinLabelSearchChars : List Char → Option (List Char)
  | [] => none
  | c :: cs =>
    match matchIsinLabelAt (c :: cs) with
    | some g => some g
    | none => isinLabelSearchChars cs

def isinLabelSearch (s : String) : Option String :=
  (isinLabelSearchChars s.data).map String.mk

structure KiidExtract where
  kiidSrri : Option Nat
  managementFee : Option String
  kiidIsin : Option String
deriving DecidableEq, Repr

/-- Model of `extract_srri_and_fee` (lines 84–143) over the texts returned by the two
extraction backends: first-backend patterns, then — only for the fields still
missing — the fallback backend with its looser SRRI chain. -/
def extract_srri_and_fee (text fullText : String) : KiidExtract :=
  let srri1 := plumberSrri text
  let fee1 := feeSearch text
  let isin1 := isinLabelSearch text
  if srri1.isSome && fee1.isSome && isin1.isSome then
    ⟨srri1, fee1, isin1⟩
  else
    { kiidSrri := match srri1 with | some v => some v | none => fallbackSrri fullText
      managementFee := match fee1 with | some v => some v | none => feeSearch fullText
      kiidIsin := match isin1 with | some v => some v | none => isinLabelSearch fullText }

/-! ## Permalink extractor: ISIN mismatch flags
(permalink_transformation.py, lines 197–199). -/

def optCell : Option String → Cell
  | none => .missing
  | some s => .str s

/-- Model of `final_df["KIID_ISIN"] != final_df["ISIN"]` per row: the scraped KIID
ISIN (missing when extraction failed) against the manifest ISIN. -/
def kiid_isin_mismatch (kiidIsin : Option String) (manifestIsin : String) : Bool :=
  cellNe (optCell kiidIsin) (Cell.str manifestIsin)

/-- Model of `final_df["FACTSHEET_ISIN"] != final_df["ISIN"]` per row. -/
def factsheet_isin_mismatch (fsIsin : Option String) (manifestIsin : String) : Bool :=
  cellNe (optCell fsIsin) (Cell.str manifestIsin)

/-! ## Claim C2: the 17-week scenario -/

/-- Monitoring history `[3,3,3,3,3,3,3,3,3,3,3,3,3,3,3,3,2]`: sixteen weeks
at 3 followed by one week at 2. -/
def c2cells : List (String × Option String) :=
  (List.replicate 16 ("SRRI Result (Week 1)", some "3")) ++
    [("SRRI Result (Week 17)", some "2")]

/-- C2: for the 17-value history `[3 × 16, 2]` the transformation yields
`latest_srri = 2`, `previous_srri = 3`, `any_16_weeks_stable = true` and
`last_16_weeks_stable = false` (the SRRI tokens `"2"`/`"3"` coerce to the
numbers 2/3). -/
theorem c2_monitoring_scenario :
    extract_srri_change_info c2cells =
      { previousSrri := some "3", latestSrri := some "2",
        changeWeek := some "SRRI Result (Week 17)" }
    ∧ has_any_16_week_stability (c2cells.map (·.2)) = true
    ∧ is_last_16_weeks_stable (c2cells.map (·.2)) = false
    ∧ toNumericCell (Cell.str "2") = Cell.num 2
    ∧ toNumericCell (Cell.str "3") = Cell.num 3 := by decide

/-! ## Claim C4: identifier derivation is deterministic but not idempotent -/

/-- C4 counterexample: applying the monitoring-side `generate_identifier`
(fixed currency `"USD"`) to its own output on the valid share-class name
`"Class A Acc"` changes the string, so the function is not idempotent. -/
theorem c4_identifier_idempotence_counterexample :
    generate_identifier (generate_identifier "Class A Acc" "USD") "USD"
      ≠ generate_identifier "Class A Acc" "USD" := by decide

/-- C4 (amended): both identifier derivations are deterministic pure
functions, but neither is idempotent: `generate_identifier` re-appends the
currency suffix (and the `accu → acc` rewrite corrupts the core on
re-application), and `clean_identifier` prepends the vendor prefix a second
time, as the explicit values below show. -/
theorem c4_identifier_derivation_not_idempotent :
    generate_identifier "Class A Acc" "USD" = "aaccusd"
    ∧ generate_identifier "aaccusd" "USD" = "aaccsdusd"
    ∧ generate_identifier (generate_identifier "Class A Acc" "USD") "USD"
        ≠ generate_identifier "Class A Acc" "USD"
    ∧ clean_identifier "Class A" = "firsttrusta"
    ∧ clean_identifier "firsttrusta" = "firsttrustfirsttrusta"
    ∧ clean_identifier (clean_identifier "Class A") ≠ clean_identifier "Class A" := by
  decide

/-! ## Claim C8: manifest share-class resolution -/

theorem isin_startsWith_IE (s : String) (h : isIsinToken s = true) :
    startsWithChars "IE".data s.data = true := by
  unfold isIsinToken at h
  split at h
  · next heq =>
      rw [heq]
      simp [startsWithChars, isPrefixOfChars]
  · exact absurd h (by simp)

/-- C8 counterexample: a well-formed KIID manifest line — it carries a KIID
URL match, an ISIN match (`IE00ABC12345` in its last field) and more than 4
comma-delimited fields, so the line-31 guard admits it — whose fourth field
`"IEX special"` starts with `"IE"` without being an ISIN.  The code resolves
the share class to `fields[2]` alone, not to the concatenation the claim
requires for a non-ISIN fourth field. -/
theorem c8_share_class_counterexample :
    hasKiidUrl "x,Fund,Class A,IEX special,UCITS KIID,English,UK Retail Investor,https://a/KIID.pdf,IE00ABC12345".data = true
    ∧ hasIsinMatch "x,Fund,Class A,IEX special,UCITS KIID,English,UK Retail Investor,https://a/KIID.pdf,IE00ABC12345".data = true
    ∧ 4 ≤ (kiidFields "x,Fund,Class A,IEX special,UCITS KIID,English,UK Retail Investor,https://a/KIID.pdf,IE00ABC12345").length
    ∧ isIsinToken "IEX special" = false
    ∧ kiidShareClass "x,Fund,Class A,IEX special,UCITS KIID,English,UK Retail Investor,https://a/KIID.pdf,IE00ABC12345"
        = some "Class A"
    ∧ some "Class A" ≠ some ("Class A" ++ " - " ++ "IEX special") := by decide

/-- C8 (amended): for a manifest line the parser accepts — a KIID URL match,
an ISIN match, and at least four comma-delimited fields — the share class is
`fields[2]` exactly when the stripped `fields[3]` starts with `"IE"` — in
particular whenever `fields[3]` is itself an ISIN — and is the concatenation
`"fields[2] - fields[3]"` otherwise. -/
theorem c8_share_class_resolution (line : String)
    (hurl : hasKiidUrl line.data = true)
    (hisin : hasIsinMatch line.data = true)
    (h4 : 4 ≤ (kiidFields line).length) :
    (isIsinToken (String.mk (pyStrip ((kiidFields line).getD 3 "").data)) = true →
      kiidShareClass line = some (String.mk (pyStrip ((kiidFields line).getD 2 "").data)))
    ∧ (startsWithChars "IE".data (pyStrip ((kiidFields line).getD 3 "").data) = true →
      kiidShareClass line = some (String.mk (pyStrip ((kiidFields line).getD 2 "").data)))
    ∧ (startsWithChars "IE".data (pyStrip ((kiidFields line).getD 3 "").data) = false →
      kiidShareClass line =
        some (String.mk (pyStrip ((kiidFields line).getD 2 "").data) ++ " - " ++
          String.mk (pyStrip ((kiidFields line).getD 3 "").data))) := by
  have hdef : kiidShareClass line =
      some (if startsWithChars "IE".data (pyStrip ((kiidFields line).getD 3 "").data) then
              String.mk (pyStrip ((kiidFields line).getD 2 "").data)
            else
              String.mk (pyStrip ((kiidFields line).getD 2 "").data) ++ " - " ++
                String.mk (pyStrip ((kiidFields line).getD 3 "").data)) := by
    unfold kiidShareClass
    rw [if_pos ⟨hurl, hisin, h4⟩]
  refine ⟨fun hIsin => ?_, fun hIE => ?_, fun hNotIE => ?_⟩
  · have hIE' : startsWithChars "IE".data (pyStrip ((kiidFields line).getD 3 "").data) = true :=
      isin_startsWith_IE _ hIsin
    rw [hdef, if_pos hIE']
  · rw [hdef, if_pos hIE]
  · rw [hdef, if_neg (by rw [hNotIE]; exact Bool.false_ne_true)]

/-- C8 witness: the claim's own scenario — an ISIN-shaped fourth field on a
line the parser accepts — resolves the share class to the text before the
ISIN field. -/
theorem c8_share_class_resolution_witness :
    kiidShareClass "x,Fund,Class A,IE00ABC12345,UCITS KIID,English,UK Retail Investor,https://a/KIID.pdf"
      = some "Class A" := by
  have h := (c8_share_class_resolution
    "x,Fund,Class A,IE00ABC12345,UCITS KIID,English,UK Retail Investor,https://a/KIID.pdf"
    (by decide) (by decide) (by decide)).1 (by decide)
  exact h.trans (by decide)

/-! ## Claim C9: the fallback SRRI extraction chain -/

/-- C9 counterexample: a document text that lacks the risk-scale header and
contains the phrase `"Category 3 reflects"`, yet yields `kiid_srri = 5`,
because the looser `risk…digit` pattern is tried before
`category N reflects` and matches `"risk 5"` first. -/
theorem c9_fallback_counterexample :
    riskHeaderSegment "risk 5 Category 3 reflects" = none
    ∧ containsSub "Category 3 reflects".data "risk 5 Category 3 reflects".data = true
    ∧ (extract_srri_and_fee "risk 5 Category 3 reflects"
        "risk 5 Category 3 reflects").kiidSrri = some 5 := by decide

/-- C9 (amended): when the first backend finds no risk-scale header and, in
the fallback text, the looser `risk…digit` pattern finds no match while the
first `category N reflects` match reads `3`, the chain yields
`kiid_srri = 3`.  Fields already found by the first backend are never
overwritten, and within the fallback the first successful pattern per field
wins (`risk…digit` before `category N reflects`). -/
theorem c9_fallback_extraction :
    (∀ text fullText : String,
      riskHeaderSegment text = none →
      riskDigitSearch fullText.data = none →
      categoryReflectsSearch fullText.data = some 3 →
      (extract_srri_and_fee text fullText).kiidSrri = some 3)
    ∧ (∀ text fullText : String, ∀ v : Nat, plumberSrri text = some v →
        (extract_srri_and_fee text fullText).kiidSrri = some v)
    ∧ (∀ text fullText : String, ∀ v : String, feeSearch text = some v →
        (extract_srri_and_fee text fullText).managementFee = some v)
    ∧ (∀ text fullText : String, ∀ v : String, isinLabelSearch text = some v →
        (extract_srri_and_fee text fullText).kiidIsin = some v)
    ∧ (∀ t : String, ∀ v : Nat, riskDigitSearch t.data = some v →
        fallbackSrri t = some v) := by
  refine ⟨?_, ?_, ?_, ?_, ?_⟩
  · intro text fullText hseg hrisk hcat
    have hsrri1 : plumberSrri text = none := by
      unfold plumberSrri
      rw [hseg]
      rfl
    unfold extract_srri_and_fee
    rw [hsrri1]
    simp only [Option.isSome_none, Bool.false_and, Bool.false_eq_true, if_false]
    show fallbackSrri fullText = some 3
    unfold fallbackSrri
    rw [hrisk, hcat]
  · intro text fullText v h
    unfold extract_srri_and_fee
    rw [h]
    dsimp only
    split
    · rfl
    · rfl
  · intro text fullText v h
    unfold extract_srri_and_fee
    rw [h]
    dsimp only
    split
    · rfl
    · rfl
  · intro text fullText v h
    unfold extract_srri_and_fee
    rw [h]
    dsimp only
    split
    · rfl
    · rfl
  · intro t v h
    unfold fallbackSrri
    rw [h]

/-- C9 witness: on the fallback text `"Category 3 reflects"` (no header, no
`risk…digit` match) the chain yields `kiid_srri = 3`. -/
theorem c9_fallback_extraction_witness :
    (extract_srri_and_fee "" "Category 3 reflects").kiidSrri = some 3 :=
  c9_fallback_extraction.1 "" "Category 3 reflects" (by decide) (by decide) (by decide)

/-! ## Claim C5: window characterisation of the stability flags -/

theorem uniformNE_iff (l : List String) (hl : l ≠ []) :
    uniformNE l = true ↔ ∃ a, l = List.replicate l.length a := by
  cases l with
  | nil => exact absurd rfl hl
  | cons a rest =>
    simp only [uniformNE, List.all_eq_true, beq_iff_eq]
    constructor
    · intro h
      refine ⟨a, List.eq_replicate_iff.mpr ⟨rfl, ?_⟩⟩
      intro b hb
      rcases List.mem_cons.mp hb with h1 | h2
      · exact h1
      · exact h _ h2
    · rintro ⟨x, hx⟩ b hb
      have hax : a = x := (List.eq_replicate_iff.mp hx).2 a (List.mem_cons_self a rest)
      have hbx : b = x := (List.eq_replicate_iff.mp hx).2 b (List.mem_cons.mpr (Or.inr hb))
      rw [hbx, hax]

theorem uniformNE_replicate (n : Nat) (a : String) (hn : n ≠ 0) :
    uniformNE (List.replicate n a) = true := by
  cases n with
  | zero => exact absurd rfl hn
  | succ m =>
    simp only [List.replicate_succ, uniformNE, List.all_eq_true, beq_iff_eq]
    intro b hb
    exact List.eq_of_mem_replicate hb

/-- The sliding check of `has_any_16_week_stability`, characterised: some
16-wide window of the non-missing value sequence is a constant block. -/
theorem anyWindow_iff (vs : List String) :
    ((List.range (vs.length - 15)).any fun i => uniformNE ((vs.drop i).take 16)) = true ↔
      ∃ i a, i + 16 ≤ vs.length ∧ (vs.drop i).take 16 = List.replicate 16 a := by
  simp only [List.any_eq_true, List.mem_range]
  constructor
  · rintro ⟨i, hi, hu⟩
    have hle : i + 16 ≤ vs.length := by omega
    have hlen : ((vs.drop i).take 16).length = 16 := by
      simp only [List.length_take, List.length_drop]
      omega
    have hne : (vs.drop i).take 16 ≠ [] := by
      intro hcon
      rw [hcon] at hlen
      simp at hlen
    obtain ⟨a, ha⟩ := (uniformNE_iff _ hne).mp hu
    rw [hlen] at ha
    exact ⟨i, a, hle, ha⟩
  · rintro ⟨i, a, hle, heq⟩
    refine ⟨i, by omega, ?_⟩
    rw [heq]
    exact uniformNE_replicate 16 a (by omega)

/-- C5: for a row with at least 16 non-missing SRRI values,
`any_16_weeks_stable` holds iff some contiguous run of exactly 16
consecutive non-missing values is constant, and `last_16_weeks_stable`
implies `any_16_weeks_stable`. -/
theorem c5_stability_window (row : List (Option String))
    (h16 : 16 ≤ (dropnaCells row).length) :
    (has_any_16_week_stability row = true ↔
      ∃ i a, i + 16 ≤ (dropnaCells row).length ∧
        ((dropnaCells row).drop i).take 16 = List.replicate 16 a)
    ∧ (is_last_16_weeks_stable row = true → has_any_16_week_stability row = true) := by
  constructor
  · exact anyWindow_iff (dropnaCells row)
  · intro hlast
    unfold is_last_16_weeks_stable at hlast
    rw [Bool.and_eq_true, beq_iff_eq] at hlast
    obtain ⟨hlen, huni⟩ := hlast
    have hne : (dropnaCells row).drop ((dropnaCells row).length - 16) ≠ [] := by
      intro hcon
      rw [hcon] at hlen
      simp at hlen
    obtain ⟨a, ha⟩ := (uniformNE_iff _ hne).mp huni
    rw [hlen] at ha
    refine (anyWindow_iff (dropnaCells row)).mpr
      ⟨(dropnaCells row).length - 16, a, by omega, ?_⟩
    rw [List.take_of_length_le (by rw [hlen]), ha]

/-- C5 witness: the 17-value history `[3 × 16, 2]` has at least 16 values,
satisfies the window characterisation, and its trailing-window implication
holds. -/
theorem c5_stability_window_witness :
    (has_any_16_week_stability (c2cells.map (·.2)) = true ↔
      ∃ i a, i + 16 ≤ (dropnaCells (c2cells.map (·.2))).length ∧
        ((dropnaCells (c2cells.map (·.2))).drop i).take 16 = List.replicate 16 a)
    ∧ (is_last_16_weeks_stable (c2cells.map (·.2)) = true →
        has_any_16_week_stability (c2cells.map (·.2)) = true) :=
  c5_stability_window (c2cells.map (·.2)) (by decide)

/-! ## Deduplication and sorting lemmas (steps 13 of the monitoring file) -/

theorem dedupGo_subset (key : α → String) :
    ∀ (l : List α) (seen : List String) (x : α), x ∈ dedupGo key seen l → x ∈ l := by
  intro l
  induction l with
  | nil => intro seen x h; simp [dedupGo] at h
  | cons y ys ih =>
    intro seen x h
    simp only [dedupGo] at h
    split at h
    · exact List.mem_cons_of_mem _ (ih _ _ h)
    · rcases List.mem_cons.mp h with h1 | h2
      · exact h1 ▸ List.mem_cons_self _ _
      · exact List.mem_cons_of_mem _ (ih _ _ h2)

theorem dedupGo_keys (key : α → String) :
    ∀ (l : List α) (seen : List String),
      ((dedupGo key seen l).map key).Nodup ∧
        ∀ k ∈ (dedupGo key seen l).map key, k ∉ seen := by
  intro l
  induction l with
  | nil => intro seen; simp [dedupGo]
  | cons y ys ih =>
    intro seen
    simp only [dedupGo]
    split
    · exact ih seen
    · next hnot =>
      obtain ⟨ihn, ihd⟩ := ih (key y :: seen)
      simp only [List.map_cons, List.nodup_cons]
      refine ⟨⟨fun hmem => (ihd _ hmem) (List.mem_cons_self _ _), ihn⟩, ?_⟩
      intro k hk
      rcases List.mem_cons.mp hk with h1 | h2
      · exact h1 ▸ hnot
      · exact fun hkseen => (ihd _ h2) (List.mem_cons_of_mem _ hkseen)

theorem dedupGo_first (key : α → String) :
    ∀ (l : List α) (seen : List String) (x : α), x ∈ dedupGo key seen l →
      ∃ l1 l2, l = l1 ++ x :: l2 ∧ ∀ z ∈ l1, key z = key x → key z ∈ seen := by
  intro l
  induction l with
  | nil => intro seen x h; simp [dedupGo] at h
  | cons y ys ih =>
    intro seen x h
    simp only [dedupGo] at h
    split at h
    · next hin =>
      obtain ⟨l1, l2, heq, hfirst⟩ := ih seen x h
      refine ⟨y :: l1, l2, by rw [heq]; rfl, ?_⟩
      intro z hz hkey
      rcases List.mem_cons.mp hz with h1 | h2
      · rw [h1]; exact hin
      · exact hfirst z h2 hkey
    · next hnotin =>
      rcases List.mem_cons.mp h with h1 | h2
      · exact ⟨[], ys, by rw [h1]; rfl, by simp⟩
      · obtain ⟨l1, l2, heq, hfirst⟩ := ih (key y :: seen) x h2
        have hxy : key x ≠ key y := by
          have hd := (dedupGo_keys key ys (key y :: seen)).2
          have hx : key x ∉ key y :: seen := hd _ (List.mem_map_of_mem key h2)
          intro hcon
          exact hx (hcon ▸ List.mem_cons_self _ _)
        refine ⟨y :: l1, l2, by rw [heq]; rfl, ?_⟩
        intro z hz hkey
        rcases List.mem_cons.mp hz with h1 | h2'
        · rw [h1] at hkey
          exact absurd hkey.symm hxy
        · rcases List.mem_cons.mp (hfirst z h2' hkey) with hk1 | hk2
          · exact absurd (hkey.symm.trans hk1) hxy
          · exact hk2

/-- A member of the deduplicated list is the first element of the input with
its key. -/
theorem dedup_first_occurrence (key : α → String) (l : List α) (x : α)
    (h : x ∈ dedupByKey key l) :
    ∃ l1 l2, l = l1 ++ x :: l2 ∧ ∀ z ∈ l1, key z ≠ key x := by
  obtain ⟨l1, l2, heq, hfirst⟩ := dedupGo_first key l [] x h
  exact ⟨l1, l2, heq, fun z hz hcon => by simpa using hfirst z hz hcon⟩

theorem charListLe_refl : ∀ u : List Char, charListLe u u = true := by
  intro u
  induction u with
  | nil => rfl
  | cons a as ih => simp [charListLe, ih]

theorem charListLe_total : ∀ u v : List Char, (charListLe u v || charListLe v u) = true := by
  intro u
  induction u with
  | nil => intro v; simp [charListLe]
  | cons a as ih =>
    intro v
    cases v with
    | nil => simp [charListLe]
    | cons b bs =>
      simp only [charListLe]
      by_cases hab : a = b
      · subst hab
        rw [if_pos rfl, if_pos rfl]
        exact ih bs
      · rw [if_neg hab, if_neg (Ne.symm hab)]
        rcases lt_trichotomy a b with h | h | h
        · simp [h]
        · exact absurd h hab
        · simp [h]

theorem charListLe_trans : ∀ u v w : List Char,
    charListLe u v = true → charListLe v w = true → charListLe u w = true := by
  intro u
  induction u with
  | nil => intro v w _ _; rfl
  | cons a as ih =>
    intro v w huv hvw
    cases v with
    | nil => simp [charListLe] at huv
    | cons b bs =>
      cases w with
      | nil => simp [charListLe] at hvw
      | cons c cs =>
        simp only [charListLe] at huv hvw ⊢
        by_cases hab : a = b
        · subst hab
          rw [if_pos rfl] at huv
          by_cases hac : a = c
          · subst hac
            rw [if_pos rfl] at hvw ⊢
            exact ih bs cs huv hvw
          · rw [if_neg hac] at hvw ⊢
            exact hvw
        · rw [if_neg hab] at huv
          have hab' : a < b := by simpa using huv
          by_cases hbc : b = c
          · subst hbc
            rw [if_neg hab]
            simpa using hab'
          · rw [if_neg hbc] at hvw
            have hbc' : b < c := by simpa using hvw
            have hac : a < c := lt_trans hab' hbc'
            rw [if_neg (ne_of_lt hac)]
            simpa using hac

instance : IsTotal SummaryRow dateGe :=
  ⟨fun a b => by
    have h := charListLe_total b.lastValidated.data a.lastValidated.data
    cases hcase : charListLe b.lastValidated.data a.lastValidated.data with
    | true => exact Or.inl hcase
    | false =>
      rw [hcase] at h
      simp only [Bool.false_or] at h
      exact Or.inr h⟩

instance : IsTrans SummaryRow dateGe :=
  ⟨fun _ _ _ hab hbc => charListLe_trans _ _ _ hbc hab⟩

/-- The date-descending sort is pairwise descending on the date strings. -/
theorem sortByDateDesc_pairwise (rows : List SummaryRow) :
    (sortByDateDesc rows).Pairwise dateGe :=
  List.sorted_insertionSort dateGe rows

theorem mem_sortByDateDesc (rows : List SummaryRow) (x : SummaryRow) :
    x ∈ sortByDateDesc rows ↔ x ∈ rows :=
  (List.perm_insertionSort dateGe rows).mem_iff

/-! ## Claim C6: the minimum-history gate -/

/-- C6: a monitoring row with fewer than 16 non-missing SRRI values never
passes the gate, every row with at least 16 does, and every row of the final
output arises from a gated row. -/
theorem c6_minimum_history_gate (rows : List MonRow) (r : MonRow) :
    (r ∈ rows → valid_srri_count r < 16 → r ∉ gateRows rows)
    ∧ (r ∈ rows → 16 ≤ valid_srri_count r → r ∈ gateRows rows)
    ∧ (∀ s ∈ process_monitoring_rows rows, ∃ r2 ∈ gateRows rows, s = mkSummary r2) := by
  refine ⟨?_, ?_, ?_⟩
  · intro _ hlt hmem
    have := (List.mem_filter.mp hmem).2
    simp only [decide_eq_true_eq] at this
    omega
  · intro hr hge
    exact List.mem_filter.mpr ⟨hr, by simpa using hge⟩
  · intro s hs
    have hs1 : s ∈ sortByDateDesc ((gateRows rows).map mkSummary) :=
      dedupGo_subset _ _ _ _ hs
    have hs2 : s ∈ (gateRows rows).map mkSummary := (mem_sortByDateDesc _ _).mp hs1
    obtain ⟨r2, hr2, hmk⟩ := List.mem_map.mp hs2
    exact ⟨r2, hr2, hmk.symm⟩

def c6rowKept : MonRow :=
  { shareClass := "Class A Acc", currency := "USD", lastValidated := "2024-01-05"
    srri := List.replicate 16 ("w", some "3") }

def c6rowDropped : MonRow :=
  { shareClass := "Class B Acc", currency := "USD", lastValidated := "2024-01-06"
    srri := [("w", some "4")] }

/-- C6 witness: a 1-value row is excluded by the gate and a 16-value row
passes it. -/
theorem c6_minimum_history_gate_witness :
    c6rowDropped ∉ gateRows [c6rowKept, c6rowDropped]
    ∧ c6rowKept ∈ gateRows [c6rowKept, c6rowDropped] :=
  ⟨(c6_minimum_history_gate [c6rowKept, c6rowDropped] c6rowDropped).1
      (by decide) (by decide),
   (c6_minimum_history_gate [c6rowKept, c6rowDropped] c6rowKept).2.1
      (by decide) (by decide)⟩

/-! ## Claim C7: identifier uniqueness, most-recent row retained -/

/-- C7: in the final monitoring table the identifiers are pairwise distinct,
and every retained row's `last_validated_document` date is at least that of
any gated summary row sharing its identifier (sort descending, keep first). -/
theorem c7_identifier_unique_most_recent (rows : List MonRow) :
    ((process_monitoring_rows rows).map (·.identifier)).Nodup
    ∧ ∀ x ∈ process_monitoring_rows rows,
        ∀ y ∈ (gateRows rows).map mkSummary,
          y.identifier = x.identifier →
            charListLe y.lastValidated.data x.lastValidated.data = true := by
  constructor
  · exact (dedupGo_keys (·.identifier) (sortByDateDesc ((gateRows rows).map mkSummary)) []).1
  · intro x hx y hy hkey
    have hx' : x ∈ dedupByKey (fun s => s.identifier)
        (sortByDateDesc ((gateRows rows).map mkSummary)) := hx
    obtain ⟨l1, l2, heq, hne⟩ :=
      dedup_first_occurrence (fun s => s.identifier)
        (sortByDateDesc ((gateRows rows).map mkSummary)) x hx'
    have hy' : y ∈ sortByDateDesc ((gateRows rows).map mkSummary) :=
      (mem_sortByDateDesc _ _).mpr hy
    rw [heq] at hy'
    rcases List.mem_append.mp hy' with h1 | h2
    · exact absurd hkey (hne y h1)
    · rcases List.mem_cons.mp h2 with h3 | h4
      · rw [h3]
        exact charListLe_refl _
      · have hpw := sortByDateDesc_pairwise ((gateRows rows).map mkSummary)
        rw [heq] at hpw
        have hcons := (List.pairwise_append.mp hpw).2.1
        exact (List.pairwise_cons.mp hcons).1 y h4

def c7rowOld : MonRow :=
  { shareClass := "Class A Acc", currency := "USD", lastValidated := "2024-01-01"
    srri := List.replicate 16 ("w", some "3") }

def c7rowNew : MonRow :=
  { shareClass := "Class A Acc", currency := "USD", lastValidated := "2024-02-01"
    srri := List.replicate 16 ("w", some "2") }

/-- C7 witness: two rows sharing the identifier; the final table keeps the
more recently validated one and its identifiers are unique. -/
theorem c7_identifier_unique_most_recent_witness :
    ((process_monitoring_rows [c7rowOld, c7rowNew]).map (·.identifier)).Nodup
    ∧ charListLe (mkSummary c7rowOld).lastValidated.data
        (mkSummary c7rowNew).lastValidated.data = true :=
  ⟨(c7_identifier_unique_most_recent [c7rowOld, c7rowNew]).1,
   (c7_identifier_unique_most_recent [c7rowOld, c7rowNew]).2
      (mkSummary c7rowNew) (by decide) (mkSummary c7rowOld) (by decide) (by decide)⟩

/-! ## Claim C10: missing scraped ISINs are flagged as mismatches -/

/-- C10: when extraction of the KIID-embedded (resp. fact-sheet) ISIN fails,
the corresponding mismatch flag is `true`, not missing — exactly as it is
when a scraped ISIN genuinely disagrees with the manifest ISIN, making the
two cases indistinguishable in the output. -/
theorem c10_missing_isin_flagged_mismatch :
    (∀ manifestIsin : String, kiid_isin_mismatch none manifestIsin = true)
    ∧ (∀ manifestIsin : String, factsheet_isin_mismatch none manifestIsin = true)
    ∧ (∀ scraped manifestIsin : String, scraped ≠ manifestIsin →
        kiid_isin_mismatch (some scraped) manifestIsin = true)
    ∧ (∀ scraped manifestIsin : String, scraped ≠ manifestIsin →
        factsheet_isin_mismatch (some scraped) manifestIsin = true) := by
  refine ⟨fun m => rfl, fun m => rfl, fun s m h => ?_, fun s m h => ?_⟩
  · show (Cell.str s != Cell.str m) = true
    simp [h]
  · show (Cell.str s != Cell.str m) = true
    simp [h]

/-- C10 witness: a concrete failed extraction and a concrete disagreement
both flag `true`. -/
theorem c10_missing_isin_flagged_mismatch_witness :
    kiid_isin_mismatch none "IE00ABC12345" = true
    ∧ factsheet_isin_mismatch none "IE00ABC12345" = true
    ∧ "IE00XYZ99999" ≠ "IE00ABC12345"
    ∧ kiid_isin_mismatch (some "IE00XYZ99999") "IE00ABC12345" = true :=
  ⟨c10_missing_isin_flagged_mismatch.1 "IE00ABC12345",
   c10_missing_isin_flagged_mismatch.2.1 "IE00ABC12345",
   by decide,
   c10_missing_isin_flagged_mismatch.2.2.1 "IE00XYZ99999" "IE00ABC12345" (by decide)⟩

/-! ## Claim C1: soundness of the mismatch report -/

theorem lookup_map_cols (f : String → Cell) :
    ∀ (cs : List String) (c : String), c ∈ cs →
      lookupCell (cs.map fun c2 => (c2, f c2)) c = f c := by
  intro cs
  induction cs with
  | nil => intro c hc; simp at hc
  | cons d ds ih =>
    intro c hc
    by_cases hdc : d = c
    · subst hdc
      unfold lookupCell
      rw [List.map_cons, List.find?_cons_of_pos _ (by simp)]
      rfl
    · have hmem : c ∈ ds := by
        rcases List.mem_cons.mp hc with h1 | h2
        · exact absurd h1.symm hdc
        · exact h2
      unfold lookupCell
      rw [List.map_cons, List.find?_cons_of_neg _ (by simpa using hdc)]
      exact ih c hmem

theorem find?_keys_eq_none (q : List (String × Cell)) (c : String)
    (hq : ∀ kv ∈ q, kv.1 ≠ c) : (q.find? fun kv => kv.1 == c) = none := by
  induction q with
  | nil => rfl
  | cons kv rest ih =>
    rw [List.find?_cons_of_neg _ (by simpa using hq kv (List.mem_cons_self _ _))]
    exact ih fun kv2 h2 => hq kv2 (List.mem_cons_of_mem _ h2)

/-- Looking a column up in an appended row reads the left part when the right
part does not carry that column. -/
theorem lookupCell_append_left (p q : List (String × Cell)) (c : String)
    (hq : ∀ kv ∈ q, kv.1 ≠ c) : lookupCell (p ++ q) c = lookupCell p c := by
  unfold lookupCell
  rw [List.find?_append, find?_keys_eq_none q c hq]
  cases p.find? fun kv => kv.1 == c <;> rfl

theorem cellNe_ne (a b : Cell) (ha : a ≠ Cell.missing) (hb : b ≠ Cell.missing)
    (h : cellNe a b = true) : a ≠ b := by
  cases a <;> cases b <;> simp_all [cellNe]

theorem monSelect_keys_ne_identifier (m : List (String × Cell)) :
    ∀ kv ∈ monSelectCols.map fun c => (c, lookupCell m c), kv.1 ≠ "IDENTIFIER" := by
  intro kv hkv
  rcases List.mem_map.mp hkv with ⟨c, hc, rfl⟩
  have hcase : c = "LATEST_SRRI" ∨ c = "WEEK_OF_CHANGE" := by
    simpa [monSelectCols] using hc
  rcases hcase with rfl | rfl
  · show ("LATEST_SRRI" : String) ≠ "IDENTIFIER"
    decide
  · show ("WEEK_OF_CHANGE" : String) ≠ "IDENTIFIER"
    decide

/-- C1: every row of the mismatch report has a present (non-missing) coerced
`KIID_SRRI` and `LATEST_SRRI` which are unequal, and it was joined from a row
of the (normalised, coerced) monitoring table whose `ANY_16_WEEKS_STABLE` is
true and whose `IDENTIFIER` matches; rows with either SRRI value missing
after the inner join never appear. -/
theorem c1_mismatch_rows_sound (monitoring permalink ma pa res : Table)
    (h : compare_srri_values monitoring permalink = Except.ok (ma, pa, res)) :
    ∀ r ∈ res.rows,
      lookupCell r "KIID_SRRI" ≠ Cell.missing
      ∧ lookupCell r "LATEST_SRRI" ≠ Cell.missing
      ∧ lookupCell r "KIID_SRRI" ≠ lookupCell r "LATEST_SRRI"
      ∧ ∃ m ∈ (coerceCol "LATEST_SRRI" (normalizeTable monitoring)).rows,
          cellEqTrue (lookupCell m "ANY_16_WEEKS_STABLE") = true
          ∧ lookupCell m "IDENTIFIER" = lookupCell r "IDENTIFIER" := by
  intro r hr
  unfold compare_srri_values at h
  dsimp only at h
  split at h
  · exact absurd h (by simp)
  · split at h
    · exact absurd h (by simp)
    · next hc2 =>
      have hcols : ∀ c ∈ requiredPermalinkCols,
          (normalizeTable permalink).cols.contains c = true := by
        have hx : (requiredPermalinkCols.all fun c =>
            (normalizeTable permalink).cols.contains c) = true := by
          rcases Bool.eq_false_or_eq_true (requiredPermalinkCols.all fun c =>
            (normalizeTable permalink).cols.contains c) with htrue | hfalse
          · exact htrue
          · exact absurd (by rw [hfalse]; rfl) hc2
        exact fun c hc => List.all_eq_true.mp hx c hc
      simp only [Except.ok.injEq, Prod.mk.injEq] at h
      obtain ⟨hma, hpa, hres⟩ := h
      rw [← hres] at hr
      obtain ⟨pm, hpm, hrproj⟩ := List.mem_map.mp hr
      obtain ⟨hkept, hmismatch⟩ := List.mem_filter.mp hpm
      obtain ⟨hpairs, hdrop⟩ := List.mem_filter.mp hkept
      obtain ⟨p, hp, hpm2⟩ := List.mem_flatMap.mp hpairs
      obtain ⟨m, hmfilt, hpmeq⟩ := List.mem_map.mp hpm2
      obtain ⟨hmstable, hmkey⟩ := List.mem_filter.mp hmfilt
      obtain ⟨hmrows, hmflag⟩ := List.mem_filter.mp hmstable
      rw [Bool.and_eq_true, Bool.not_eq_eq_eq_not, Bool.not_true,
        beq_eq_false_iff_ne, Bool.not_eq_eq_eq_not, Bool.not_true,
        beq_eq_false_iff_ne] at hdrop
      obtain ⟨hkiidne, hlatestne⟩ := hdrop
      have hKin : "KIID_SRRI" ∈
          preferredOrder.filter (fun c =>
            ((coerceCol "KIID_SRRI" (normalizeTable permalink)).cols ++ monSelectCols).contains c) := by
        refine List.mem_filter.mpr ⟨by decide, ?_⟩
        have : "KIID_SRRI" ∈ (normalizeTable permalink).cols :=
          List.mem_of_elem_eq_true (hcols "KIID_SRRI" (by decide))
        exact List.elem_eq_true_of_mem (List.mem_append_left _ this)
      have hLin : "LATEST_SRRI" ∈
          preferredOrder.filter (fun c =>
            ((coerceCol "KIID_SRRI" (normalizeTable permalink)).cols ++ monSelectCols).contains c) := by
        refine List.mem_filter.mpr ⟨by decide, ?_⟩
        exact List.elem_eq_true_of_mem (List.mem_append_right _ (by decide))
      have hIin : "IDENTIFIER" ∈
          preferredOrder.filter (fun c =>
            ((coerceCol "KIID_SRRI" (normalizeTable permalink)).cols ++ monSelectCols).contains c) := by
        refine List.mem_filter.mpr ⟨by decide, ?_⟩
        have : "IDENTIFIER" ∈ (normalizeTable permalink).cols :=
          List.mem_of_elem_eq_true (hcols "IDENTIFIER" (by decide))
        exact List.elem_eq_true_of_mem (List.mem_append_left _ this)
      have hlookK := lookup_map_cols (fun c => lookupCell (joinRow pm) c) _ _ hKin
      have hlookL := lookup_map_cols (fun c => lookupCell (joinRow pm) c) _ _ hLin
      have hlookI := lookup_map_cols (fun c => lookupCell (joinRow pm) c) _ _ hIin
      rw [← hrproj]
      rw [hlookK, hlookL, hlookI]
      refine ⟨hkiidne, hlatestne, cellNe_ne _ _ hkiidne hlatestne hmismatch, ?_⟩
      refine ⟨m, hmrows, hmflag, ?_⟩
      have hkeyeq : lookupCell m "IDENTIFIER" = lookupCell p "IDENTIFIER" :=
        beq_iff_eq.mp hmkey
      have hjoinI : lookupCell (joinRow pm) "IDENTIFIER" = lookupCell pm.1 "IDENTIFIER" :=
        lookupCell_append_left _ _ _ (monSelect_keys_ne_identifier pm.2)
      show lookupCell m "IDENTIFIER" = lookupCell (joinRow pm) "IDENTIFIER"
      rw [hjoinI, ← hpmeq]
      exact hkeyeq

def c1mon : Table :=
  { cols := ["IDENTIFIER", "LATEST_SRRI", "WEEK_OF_CHANGE", "ANY_16_WEEKS_STABLE"]
    rows := [[("IDENTIFIER", .str "abcusd"), ("LATEST_SRRI", .str "2"),
              ("WEEK_OF_CHANGE", .str "Week 5"), ("ANY_16_WEEKS_STABLE", .boolC true)]] }

def c1perm : Table :=
  { cols := ["IDENTIFIER", "KIID_SRRI"]
    rows := [[("IDENTIFIER", .str "abcusd"), ("KIID_SRRI", .str "3")]] }

def c1monAfter : Table :=
  { cols := ["IDENTIFIER", "LATEST_SRRI", "WEEK_OF_CHANGE", "ANY_16_WEEKS_STABLE"]
    rows := [[("IDENTIFIER", .str "abcusd"), ("LATEST_SRRI", .num 2),
              ("WEEK_OF_CHANGE", .str "Week 5"), ("ANY_16_WEEKS_STABLE", .boolC true)]] }

def c1permAfter : Table :=
  { cols := ["IDENTIFIER", "KIID_SRRI"]
    rows := [[("IDENTIFIER", .str "abcusd"), ("KIID_SRRI", .num 3)]] }

def c1row : List (String × Cell) :=
  [("IDENTIFIER", .str "abcusd"), ("KIID_SRRI", .num 3),
   ("LATEST_SRRI", .num 2), ("WEEK_OF_CHANGE", .str "Week 5")]

def c1res : Table :=
  { cols := ["IDENTIFIER", "KIID_SRRI", "LATEST_SRRI", "WEEK_OF_CHANGE"]
    rows := [c1row] }

/-- C1 witness: on a one-row pair of tables, the single reported row has both
SRRI values present and unequal and stems from a stable monitoring row. -/
theorem c1_mismatch_rows_sound_witness :
    lookupCell c1row "KIID_SRRI" ≠ Cell.missing
    ∧ lookupCell c1row "LATEST_SRRI" ≠ Cell.missing
    ∧ lookupCell c1row "KIID_SRRI" ≠ lookupCell c1row "LATEST_SRRI"
    ∧ ∃ m ∈ (coerceCol "LATEST_SRRI" (normalizeTable c1mon)).rows,
        cellEqTrue (lookupCell m "ANY_16_WEEKS_STABLE") = true
        ∧ lookupCell m "IDENTIFIER" = lookupCell c1row "IDENTIFIER" :=
  c1_mismatch_rows_sound c1mon c1perm c1monAfter c1permAfter c1res rfl c1row (by decide)

/-! ## Claim C3: the reconciler mutates its in-memory inputs -/

def c3monOk : Table :=
  { cols := ["IDENTIFIER", "LATEST_SRRI", "WEEK_OF_CHANGE", "ANY_16_WEEKS_STABLE"]
    rows := [[("IDENTIFIER", .str "xusd"), ("LATEST_SRRI", .num 2),
              ("WEEK_OF_CHANGE", .str "Week 1"), ("ANY_16_WEEKS_STABLE", .boolC true)]] }

/-- A permalink table as a caller might hold it: lower-case, space-separated
column names, SRRI still a string token. -/
def c3permLower : Table :=
  { cols := ["identifier", "kiid srri"]
    rows := [[("identifier", .str "xusd"), ("kiid srri", .str "3")]] }

/-- C3 counterexample: the call succeeds on these in-memory tables, yet the
permalink argument's post-call state differs from its pre-call state (column
names normalised in place, `KIID_SRRI` coerced in place), refuting the claim
that the inputs are never mutated. -/
theorem c3_mutation_counterexample :
    (permalinkAfter c3monOk c3permLower).isSome = true
    ∧ permalinkAfter c3monOk c3permLower ≠ some c3permLower := by decide

theorem mapIdOfMem (f : α → α) (l : List α) (h : ∀ x ∈ l, f x = x) :
    l.map f = l := by
  induction l with
  | nil => rfl
  | cons a as ih =>
    rw [List.map_cons, h a (List.mem_cons_self _ _),
      ih fun x hx => h x (List.mem_cons_of_mem _ hx)]

/-- A table whose column names are already canonical and whose column `c` is
already numeric is a fixed point of normalisation-plus-coercion. -/
theorem coerce_normalize_fixed (t : Table) (c : String)
    (hcols : ∀ x ∈ t.cols, normalizeName x = x)
    (hrows : ∀ row ∈ t.rows, ∀ kv ∈ row,
      normalizeName kv.1 = kv.1 ∧ (kv.1 = c → toNumericCell kv.2 = kv.2)) :
    coerceCol c (normalizeTable t) = t := by
  unfold coerceCol normalizeTable
  obtain ⟨cols, rows⟩ := t
  simp only at hcols hrows
  rw [Table.mk.injEq]
  constructor
  · exact mapIdOfMem _ _ hcols
  · rw [List.map_map]
    apply mapIdOfMem
    intro row hrow
    show (row.map _).map _ = row
    rw [List.map_map]
    apply mapIdOfMem
    intro kv hkv
    obtain ⟨hname, hnum⟩ := hrows row hrow kv hkv
    obtain ⟨k, v⟩ := kv
    simp only at hname hnum
    show (if (normalizeName k, v).1 = c then
        ((normalizeName k, v).1, toNumericCell (normalizeName k, v).2)
      else (normalizeName k, v)) = (k, v)
    rw [show ((normalizeName k, v) : String × Cell) = (k, v) from by rw [hname]]
    by_cases hkc : k = c
    · show (if (k, v).1 = c then ((k, v).1, toNumericCell (k, v).2) else (k, v)) = (k, v)
      rw [if_pos hkc]
      rw [hnum hkc]
    · show (if (k, v).1 = c then ((k, v).1, toNumericCell (k, v).2) else (k, v)) = (k, v)
      rw [if_neg hkc]

/-- C3 (amended): `compare_srri_values` mutates its in-memory inputs by
normalising their column names and coercing the `KIID_SRRI` / `LATEST_SRRI`
columns to numeric, and does nothing else to them: whenever a successful
call's inputs are already in canonical form — column names normalised and
those two columns numeric — both inputs are unchanged by the call. -/
theorem c3_canonical_inputs_preserved (monitoring permalink ma pa res : Table)
    (h : compare_srri_values monitoring permalink = Except.ok (ma, pa, res))
    (hmonCols : ∀ c ∈ monitoring.cols, normalizeName c = c)
    (hmonRows : ∀ row ∈ monitoring.rows, ∀ kv ∈ row,
        normalizeName kv.1 = kv.1 ∧ (kv.1 = "LATEST_SRRI" → toNumericCell kv.2 = kv.2))
    (hpermCols : ∀ c ∈ permalink.cols, normalizeName c = c)
    (hpermRows : ∀ row ∈ permalink.rows, ∀ kv ∈ row,
        normalizeName kv.1 = kv.1 ∧ (kv.1 = "KIID_SRRI" → toNumericCell kv.2 = kv.2)) :
    ma = monitoring ∧ pa = permalink := by
  unfold compare_srri_values at h
  dsimp only at h
  split at h
  · exact absurd h (by simp)
  · split at h
    · exact absurd h (by simp)
    · simp only [Except.ok.injEq, Prod.mk.injEq] at h
      obtain ⟨hma, hpa, _⟩ := h
      constructor
      · rw [← hma]
        exact coerce_normalize_fixed monitoring "LATEST_SRRI" hmonCols hmonRows
      · rw [← hpa]
        exact coerce_normalize_fixed permalink "KIID_SRRI" hpermCols hpermRows

def c3wmon : Table :=
  { cols := ["IDENTIFIER", "LATEST_SRRI", "WEEK_OF_CHANGE", "ANY_16_WEEKS_STABLE"]
    rows := [[("IDENTIFIER", .str "yusd"), ("LATEST_SRRI", .num 4),
              ("WEEK_OF_CHANGE", .str "Week 2"), ("ANY_16_WEEKS_STABLE", .boolC true)]] }

def c3wperm : Table :=
  { cols := ["IDENTIFIER", "KIID_SRRI"]
    rows := [[("IDENTIFIER", .str "yusd"), ("KIID_SRRI", .num 4)]] }

def c3wres : Table :=
  { cols := ["IDENTIFIER", "KIID_SRRI", "LATEST_SRRI", "WEEK_OF_CHANGE"]
    rows := [] }

/-- C3 witness: a successful call on already-canonical tables leaves both
inputs unchanged. -/
theorem c3_canonical_inputs_preserved_witness :
    c3wmon = c3wmon ∧ c3wperm = c3wperm :=
  c3_canonical_inputs_preserved c3wmon c3wperm c3wmon c3wperm c3wres rfl
    (by decide) (by decide) (by decide) (by decide)

end SRRI
